import Mathlib

/-!
# Verification of the IPPS well-performance core

Shallow embedding of the numerical core of the IPPS petroleum production
engineering application: friction-factor models, real-gas z-factor and
viscosity correlations, and the IPR (inflow) curve generators, together with
theorems settling the frozen specification claims.

Modelling conventions:
* JavaScript numbers are modelled by `JSNum`: finite values are exact real
  numbers (no rounding and no overflow), plus the special values NaN and the
  two signed infinities.  Negative zero is identified with plain zero.
* Functions whose body can `throw` are modelled with `Except String`.
* `while` loops stepping a real-valued counter are translated to maps over
  `List.range n` where `n` is the exact number of iterations the source loop
  performs for the given inputs; fixed-count convergence loops are translated
  to structural recursion on the iteration budget.
-/

open Classical

noncomputable section

/-- Model of a JavaScript IEEE-754 double, idealized: finite values are exact
reals, together with NaN and the two infinities. -/
inductive JSNum where
  | num (x : ℝ)
  | nan
  | pinf
  | ninf

namespace JSNum

/-- JS `<` on numbers: any comparison involving NaN is false. -/
def lt : JSNum → JSNum → Prop
  | num a, num b => a < b
  | num _, pinf => True
  | ninf, num _ => True
  | ninf, pinf => True
  | _, _ => False

/-- JS `<=` on numbers: any comparison involving NaN is false. -/
def le : JSNum → JSNum → Prop
  | num a, num b => a ≤ b
  | num _, pinf => True
  | pinf, pinf => True
  | ninf, num _ => True
  | ninf, pinf => True
  | ninf, ninf => True
  | _, _ => False

/-- JS `Number.isFinite`. -/
def isFinite : JSNum → Prop
  | num _ => True
  | _ => False

/-- JS addition. -/
def add : JSNum → JSNum → JSNum
  | nan, _ => nan
  | _, nan => nan
  | num a, num b => num (a + b)
  | num _, pinf => pinf
  | num _, ninf => ninf
  | pinf, num _ => pinf
  | ninf, num _ => ninf
  | pinf, pinf => pinf
  | ninf, ninf => ninf
  | pinf, ninf => nan
  | ninf, pinf => nan

/-- JS negation. -/
def neg : JSNum → JSNum
  | num a => num (-a)
  | nan => nan
  | pinf => ninf
  | ninf => pinf

/-- JS subtraction. -/
def sub (a b : JSNum) : JSNum := add a (neg b)

/-- JS multiplication: `0 * ±∞ = NaN`, NaN propagates. -/
def mul : JSNum → JSNum → JSNum
  | nan, _ => nan
  | _, nan => nan
  | num a, num b => num (a * b)
  | num a, pinf => if a = 0 then nan else if 0 < a then pinf else ninf
  | num a, ninf => if a = 0 then nan else if 0 < a then ninf else pinf
  | pinf, num b => if b = 0 then nan else if 0 < b then pinf else ninf
  | ninf, num b => if b = 0 then nan else if 0 < b then ninf else pinf
  | pinf, pinf => pinf
  | ninf, ninf => pinf
  | pinf, ninf => ninf
  | ninf, pinf => ninf

/-- JS division: `0/0 = NaN`, `a/0 = ±∞` for `a ≠ 0`, `±∞/±∞ = NaN`
(sign of a zero divisor is identified with `+0`). -/
def div : JSNum → JSNum → JSNum
  | nan, _ => nan
  | _, nan => nan
  | num a, num b =>
      if b = 0 then (if a = 0 then nan else if 0 < a then pinf else ninf)
      else num (a / b)
  | num _, pinf => num 0
  | num _, ninf => num 0
  | pinf, num b => if 0 ≤ b then pinf else ninf
  | ninf, num b => if 0 ≤ b then ninf else pinf
  | pinf, pinf => nan
  | pinf, ninf => nan
  | ninf, pinf => nan
  | ninf, ninf => nan

/-- JS `Math.exp`. -/
def exp : JSNum → JSNum
  | num a => num (Real.exp a)
  | nan => nan
  | pinf => pinf
  | ninf => num 0

/-- JS `Math.pow`.  A zero exponent gives 1 even for a NaN base; a NaN in any
other position propagates; a negative finite base with a non-integral exponent
gives NaN; the remaining finite cases follow `Real.rpow`, which agrees with
the IEEE value there. -/
def powJS : JSNum → JSNum → JSNum
  | b, num e =>
      if e = 0 then num 1 else
      match b with
      | num a =>
          if 0 < a then num (a ^ e)
          else if a = 0 then (if 0 < e then num 0 else pinf)
          else if ∃ n : ℤ, (n : ℝ) = e then num (a ^ e) else nan
      | nan => nan
      | pinf => if 0 < e then pinf else num 0
      | ninf =>
          if 0 < e then (if ∃ n : ℤ, (n : ℝ) = e ∧ Odd n then ninf else pinf)
          else num 0
  | _, nan => nan
  | b, pinf =>
      match b with
      | num a => if 1 < |a| then pinf else if |a| = 1 then nan else num 0
      | nan => nan
      | pinf => pinf
      | ninf => pinf
  | b, ninf =>
      match b with
      | num a => if 1 < |a| then num 0 else if |a| = 1 then nan else pinf
      | nan => nan
      | pinf => num 0
      | ninf => num 0


end JSNum

/-- Propositional `takeWhile`, mirroring the effect of a `break` inside a
JavaScript `for` loop: elements are kept until the first one failing `p`. -/
def takeWhileP {α : Type} (p : α → Prop) : List α → List α
  | [] => []
  | a :: l => if p a then a :: takeWhileP p l else []

/-- The three spacing methods offered by the UI, plus the absent/empty case. -/
inductive SpacingMethod where
  | numberOfPoints
  | deltaPressure
  | deltaFlowrate
  | unspecified

/-- Embedding of `oil_calculatePseudosteadyIPR`
(src/Applications/NodalAnalysis/NodalAnalysisUtils.ts).  Inputs are finite
reals (the UI hands over plain numbers); intermediate arithmetic that can
produce NaN or an infinity (the division by `denom`, and the division
`i / (N - 1)`) is carried out in `JSNum`.  Points are `(p_wf, q_o)` pairs.
In the `Delta Flowrate` branch the source loop `for (q = 0; q <= qMax; ...)`
does not terminate when `qMax = +∞`; that case is modelled as the empty list
(no claim touches it), and a NaN or negative `qMax` correctly yields an empty
list exactly as in the source. -/
def oil_calculatePseudosteadyIPR (k h Bo muo s p_avg re rw : ℝ)
    (spacingMethod : SpacingMethod) (spacingValue : ℝ) : List (JSNum × JSNum) :=
  let denom := Real.log (re / rw) - 0.75 + s
  let factor := JSNum.div
    (JSNum.div (JSNum.num (k * h)) (JSNum.num (141.2 * Bo * muo))) (JSNum.num denom)
  match spacingMethod with
  | .numberOfPoints =>
      let N := if 0 < spacingValue then spacingValue else 25
      (List.range ⌈N⌉₊).map (fun (i : ℕ) =>
        let frac := JSNum.div (JSNum.num (i : ℝ)) (JSNum.num (N - 1))
        let p_wf := JSNum.mul (JSNum.num p_avg) (JSNum.sub (JSNum.num 1) frac)
        (p_wf, JSNum.mul factor (JSNum.sub (JSNum.num p_avg) p_wf)))
  | .deltaPressure =>
      let dP := if 0 < spacingValue then spacingValue else 100
      (List.range ⌈p_avg / dP⌉₊).map (fun (i : ℕ) =>
        let p_wf := p_avg - (i : ℝ) * dP
        (JSNum.num p_wf, JSNum.mul factor (JSNum.num (p_avg - p_wf))))
  | .deltaFlowrate =>
      let dq := if 0 < spacingValue then spacingValue else 50
      (match JSNum.mul factor (JSNum.num p_avg) with
       | JSNum.num qMax =>
          takeWhileP (fun pt => ¬ JSNum.lt pt.1 (JSNum.num 0))
            (((List.range (⌊qMax / dq⌋ + 1).toNat).map (fun (i : ℕ) => (i : ℝ) * dq)).map
              (fun q =>
                (JSNum.sub (JSNum.num p_avg) (JSNum.div (JSNum.num q) factor),
                 JSNum.num q)))
       | _ => [])
  | .unspecified =>
      (List.range 25).map (fun (i : ℕ) =>
        let frac := JSNum.div (JSNum.num (i : ℝ)) (JSNum.num ((25 : ℝ) - 1))
        let p_wf := JSNum.mul (JSNum.num p_avg) (JSNum.sub (JSNum.num 1) frac)
        (p_wf, JSNum.mul factor (JSNum.sub (JSNum.num p_avg) p_wf)))

/-- Embedding of the closure `getFlow` inside `two_calculatePseudosteadyIPR`
(NodalAnalysisUtils.ts).  The captured environment (productivity index `J`,
average reservoir pressure `p_avg`, bubble point `pb`, bowedness exponent `a`)
is passed explicitly.  All arithmetic on this path is finite, so the model is
over the reals. -/
def getFlow (J p_avg pb a p_wf : ℝ) : ℝ :=
  if p_avg ≤ pb then
    J * p_avg / (1 + a) * (1 - (1 - a) * (p_wf / p_avg) - a * (p_wf / p_avg) ^ 2)
  else if pb ≤ p_wf then
    J * (p_avg - p_wf)
  else
    J * (p_avg - pb) +
      J * pb / (1 + a) * (1 - (1 - a) * (p_wf / pb) - a * (p_wf / pb) ^ 2)

/-- The `filter`/`Math.max` root selection used by `invertFlow`: keep the two
candidate roots that lie in `[0, 1]` and return the largest, or `none` when
neither qualifies. -/
def selectRoot (x1 x2 : ℝ) : Option ℝ :=
  if 0 ≤ x1 ∧ x1 ≤ 1 then
    if 0 ≤ x2 ∧ x2 ≤ 1 then some (max x1 x2) else some x1
  else if 0 ≤ x2 ∧ x2 ≤ 1 then some x2 else none

/-- Embedding of the closure `invertFlow` inside `two_calculatePseudosteadyIPR`
(NodalAnalysisUtils.ts); `none` models the source's `null`. -/
def invertFlow (J p_avg pb a q : ℝ) : Option ℝ :=
  if p_avg ≤ pb then
    let A_sat := J * p_avg / (1 + a)
    let B_coef := 1 - a
    let C_coef := q / A_sat - 1
    let disc := B_coef * B_coef - 4 * a * C_coef
    if disc < 0 then none
    else
      let sqrtDisc := Real.sqrt disc
      (selectRoot ((-B_coef + sqrtDisc) / (2 * a)) ((-B_coef - sqrtDisc) / (2 * a))).map
        (fun x => x * p_avg)
  else
    let p_wf_single := p_avg - q / J
    if pb ≤ p_wf_single then some p_wf_single
    else
      let Q_offset := J * (p_avg - pb)
      let A_vog := J * pb / (1 + a)
      let B_coef := 1 - a
      let C_coef := (q - Q_offset) / A_vog - 1
      let disc := B_coef * B_coef - 4 * a * C_coef
      if disc < 0 then none
      else
        let sqrtDisc := Real.sqrt disc
        (selectRoot ((-B_coef + sqrtDisc) / (2 * a)) ((-B_coef - sqrtDisc) / (2 * a))).map
          (fun x => x * pb)

/-- The friction-factor correlations of `friction.ts`. -/
inductive FrictionModel where
  | chen
  | swameeJain
  | colebrookWhite
  | haaland
  | churchill

/-- The fixed 25-step Colebrook–White fixed-point iteration on the Moody
(Darcy) factor, seeded at 0.02. -/
def cwLoop (Re rel : ℝ) : ℕ → ℝ → ℝ
  | 0, fM => fM
  | n + 1, fM =>
      cwLoop Re rel n
        (1 / ((-2) * Real.logb 10 (rel / 3.7 + 2.51 / (Re * Real.sqrt fM))) ^ 2)

/-- Embedding of `fanningFromModel` (friction.ts): the Fanning friction factor
from Reynolds number `Re`, relative roughness `rel` and the selected model.
Below `Re = 2100` every model short-circuits to the laminar value `16 / Re`. -/
def fanningFromModel (Re rel : ℝ) (model : FrictionModel) : ℝ :=
  if Re < 2100 then 16 / Re else
  match model with
  | .swameeJain =>
      (0.25 / (Real.logb 10 (rel / 3.7 + 5.74 / Re ^ (0.9 : ℝ))) ^ 2) / 4
  | .colebrookWhite => cwLoop Re rel 25 0.02 / 4
  | .haaland =>
      let invSqrt := -1.8 * Real.logb 10 ((rel / 3.7) ^ (1.11 : ℝ) + 6.9 / Re)
      (1 / (invSqrt * invSqrt)) / 4
  | .churchill =>
      let A := (2.457 * Real.log (1 / (7 / Re) ^ (0.9 : ℝ) + 0.27 * rel)) ^ (16 : ℕ)
      let B := (37530 / Re) ^ (16 : ℕ)
      (8 * ((8 / Re) ^ (12 : ℕ) + 1 / (A + B) ^ (1.5 : ℝ)) ^ ((1 : ℝ) / 12)) / 4
  | .chen =>
      let A := -2 * Real.logb 10
        (rel / 3.7065 -
          5.0452 / Re * Real.logb 10 (rel ^ (1.1098 : ℝ) / 2.8257 + (7.149 / Re) ^ (0.8981 : ℝ)))
      (1 / (A * A)) / 4

/-- Generic fixed-budget convergence loop shared by the iterative z-factor
correlations (GasCorrelations.ts): advance the iterate by `step`; as soon as
two consecutive iterates agree within `tol`, return `out` of the iterate the
source returns at that moment; when the budget is exhausted, return the
sentinel 999. -/
def convLoop (step out : ℝ → ℝ) (tol : ℝ) : ℕ → ℝ → ℝ
  | 0, _ => 999
  | n + 1, x =>
      let x' := step x
      if |x' - x| < tol then out x else convLoop step out tol n x'

/-- The Dranchuk & Abou-Kassem (1975) equation of state: `Z` as a function of
reduced temperature `Tpr` and reduced density `rho`. -/
def dakZ (Tpr rho : ℝ) : ℝ :=
  let C1 := 0.3265 + (-1.07) / Tpr + (-0.5339) / Tpr ^ 3 + 0.01569 / Tpr ^ 4 +
    (-0.05165) / Tpr ^ 5
  let C2 := 0.5475 + (-0.7361) / Tpr + 0.1844 / Tpr ^ 2
  let C3 := 0.1056 * ((-0.7361) / Tpr + 0.1844 / Tpr ^ 2)
  let rho2 := rho * rho
  let rho5 := rho2 * rho2 * rho
  let C4 := 0.721 * rho2
  1 + C1 * rho + C2 * rho2 - C3 * rho5 +
    0.6134 * (1 + C4) * rho2 / Tpr ^ 3 * Real.exp (-C4)

/-- One reduced-density update of the DAK fixed-point scheme. -/
def dakNext (Ppr Tpr rho : ℝ) : ℝ := 0.27 * Ppr / (dakZ Tpr rho * Tpr)

/-- Embedding of `Z_DAK1975` (GasCorrelations.ts): domain check, then the
100-iteration fixed-point scheme on reduced density with tolerance 1e-6;
convergence returns the `Z` computed from the pre-update density, exhaustion
returns 999. -/
def Z_DAK1975 (Ppr Tpr : ℝ) : Except String ℝ :=
  if 0 < Ppr ∧ Ppr < 30 ∧ 1 < Tpr ∧ Tpr ≤ 3 then
    .ok (convLoop (dakNext Ppr Tpr) (dakZ Tpr) 1e-6 100 (0.27 * (Ppr / Tpr)))
  else .error "Z_DAK1975: out of recommended correlation limits"

/-- The Dranchuk, Purvis & Robinson (1974) equation of state: `Z` from reduced
temperature and reduced density. -/
def dprZ (Tpr rho : ℝ) : ℝ :=
  let B1 := 0.31506237 + (-1.0467099) / Tpr + (-0.57832729) / Tpr ^ 3
  let B2 := 0.53530771 + (-0.61232032) / Tpr
  let B3 := (-0.61232032) * (-0.10488813) / Tpr
  let B4 := 0.68157001 / Tpr ^ 3
  let B5 := 0.68446549 * (rho * rho)
  1 + B1 * rho + B2 * rho ^ 2 + B3 * rho ^ 5 + B4 * (rho * rho) * (1 + B5) * Real.exp (-B5)

/-- One reduced-density update of the DPR fixed-point scheme. -/
def dprNext (Ppr Tpr rho : ℝ) : ℝ := 0.27 * Ppr / (dprZ Tpr rho * Tpr)

/-- Embedding of `Z_DPR1974` (GasCorrelations.ts). -/
def Z_DPR1974 (Ppr Tpr : ℝ) : Except String ℝ :=
  if 0 < Ppr ∧ Ppr < 15 ∧ 1 < Tpr ∧ Tpr ≤ 3 then
    .ok (convLoop (dprNext Ppr Tpr) (dprZ Tpr) 1e-6 100 (0.27 * (Ppr / Tpr)))
  else .error "Z_DPR1974: out of recommended correlation limits"

/-- One Newton update of the Redlich–Kwong cubic, solved directly on `Z`. -/
def rkNext (Ppr Tpr Z : ℝ) : ℝ :=
  let u := (2 : ℝ) ^ ((1 : ℝ) / 3) - 1
  let A := Ppr / (9 * u * Tpr ^ ((5 : ℝ) / 2))
  let b := Ppr * u / (3 * Tpr)
  let AB := Ppr ^ 2 / (27 * Tpr ^ ((7 : ℝ) / 2))
  let f := Z ^ 3 - Z ^ 2 - (b * b + b - A) * Z - AB
  let df := 3 * Z ^ 2 - 2 * Z - (b * b + b - A)
  Z - f / df

/-- Embedding of `Z_RedlichKwong1949` (GasCorrelations.ts): Newton iteration on
`Z` from a starting value of 1, 100-iteration budget, tolerance 1e-5; the
source returns the freshly updated `Z` on convergence. -/
def Z_RedlichKwong1949 (Ppr Tpr : ℝ) : Except String ℝ :=
  if 0 ≤ Ppr ∧ Ppr < 15 ∧ 1 < Tpr ∧ Tpr ≤ 3 then
    .ok (convLoop (rkNext Ppr Tpr) (rkNext Ppr Tpr) 1e-5 100 1)
  else .error "Z_RedlichKwong1949: out of recommended correlation limits"

/-- Embedding of `Z_BrillBeggs1974` (GasCorrelations.ts), a closed form. -/
def Z_BrillBeggs1974 (P_pr T_pr : ℝ) : Except String ℝ :=
  if (0 ≤ P_pr ∧ P_pr < 15) ∧ (1.15 < T_pr ∧ T_pr ≤ 2.4) then
    let A := 1.39 * Real.sqrt (T_pr - 0.92) - 0.36 * T_pr - 0.101
    let b := (0.62 - 0.23 * T_pr) * P_pr + (0.066 / (T_pr - 0.86) - 0.037) * P_pr ^ 2 +
      0.32 * P_pr ^ 6 / (10 : ℝ) ^ (9 * (T_pr - 1))
    let c := 0.132 - 0.32 * Real.logb 10 T_pr
    let d := (10 : ℝ) ^ (0.3106 - 0.49 * T_pr + 0.1824 * T_pr ^ 2)
    .ok (A + (1 - A) / Real.exp b + c * P_pr ^ d)
  else .error "Z_BrillBeggs1974: Out of correlation limits"

/-- Embedding of `z_gas` (GasCorrelations.ts): dispatch on the method code.
Codes 2 (Hall & Yarborough, commented out in the source) and 5 (chart
interpolation, whose `return` is unreachable dead code after case 4's own
`return`) fall to the default branch, as does any other unknown code and any
non-positive reduced pressure or temperature; the default yields NaN without
raising. -/
def z_gas (P_pr T_pr : ℝ) (method : ℕ) : Except String JSNum :=
  if 0 < P_pr ∧ 0 < T_pr then
    match method with
    | 0 => (Z_DAK1975 P_pr T_pr).map JSNum.num
    | 1 => (Z_DPR1974 P_pr T_pr).map JSNum.num
    | 3 => (Z_RedlichKwong1949 P_pr T_pr).map JSNum.num
    | 4 => (Z_BrillBeggs1974 P_pr T_pr).map JSNum.num
    | _ => .ok JSNum.nan
  else .ok JSNum.nan

/-- Embedding of `getPseudoCritical` (GasCorrelations.ts): Standing's
correlation `(Ppc, Tpc)`; the optional method and contaminant parameters are
accepted but ignored by the source and therefore omitted here. -/
def getPseudoCritical (Sg_g : ℝ) : ℝ × ℝ :=
  (677 - 15 * Sg_g, 168 + 325 * Sg_g)

/-- Embedding of `Tr_reduced`: temperature in °F to reduced temperature. -/
def Tr_reduced (T Tpc : ℝ) : ℝ := (T + 459.67) / Tpc

/-- Embedding of `Pr_reduced`. -/
def Pr_reduced (P Ppc : ℝ) : ℝ := P / Ppc

/-- Embedding of `z_PT` (GasCorrelations.ts): specific-gravity gate, then
pseudo-critical estimation and `z_gas`. -/
def z_PT (P T Sg_g : ℝ) (methodz : ℕ) : Except String JSNum :=
  if 0.56 ≤ Sg_g then
    let Ppc := (getPseudoCritical Sg_g).1
    let Tpc := (getPseudoCritical Sg_g).2
    z_gas (Pr_reduced P Ppc) (Tr_reduced T Tpc) methodz
  else .error "gas z-factor: Sg_g is less than 0.56"

/-- Constant `Tabsolut` of GasCorrelations.ts. -/
def Tabsolut : ℝ := 310

/-- Constant `Mwair` of GasCorrelations.ts. -/
def Mwair : ℝ := 28.97

/-- Embedding of `gas_dens_PT` (GasCorrelations.ts); `Z` may be NaN, so the
computation lives in `JSNum`. -/
def gas_dens_PT (P T Sg_g : ℝ) (Z : JSNum) : JSNum :=
  JSNum.div (JSNum.num (P * (Sg_g * Mwair)))
    (JSNum.mul (JSNum.mul Z (JSNum.num 10.731)) (JSNum.num (T + 459.67)))

/-- Embedding of `gas_visc_Patm` (GasCorrelations.ts). -/
def gas_visc_Patm (T Sg_g : ℝ) : ℝ :=
  (1.709 / 100000 - 2.062 / 1000000 * Sg_g) * T + 8.188 / 1000 -
    6.15 / 1000 * (Real.log Sg_g / Real.log 10)

/-- Embedding of `gas_visc_ratio` (GasCorrelations.ts). -/
def gas_visc_ratio (PR TR : ℝ) : ℝ :=
  let l0 := -2.4621182 + 2.970547414 * PR - 0.286264054 * PR ^ 2 + 0.00805420522 * PR ^ 3
  let l1 := l0 + TR * (2.80860949 - 3.49803305 * PR + 0.36037302 * PR ^ 2 - 0.01044324 * PR ^ 3)
  let l2 := l1 + TR ^ 2 *
    (-0.793385648 + 1.39643306 * PR - 0.149144925 * PR ^ 2 + 0.00441015512 * PR ^ 3)
  let l3 := l2 + TR ^ 3 *
    (0.0839387178 - 0.186408848 * PR + 0.0203367881 * PR ^ 2 - 0.000609579263 * PR ^ 3)
  Real.exp l3 / TR

/-- Embedding of `gas_visc_sour` (GasCorrelations.ts). -/
def gas_visc_sour (Sg_g YN2 YCO2 YH2S : ℝ) : ℝ :=
  let log10_Sg := Real.log Sg_g / Real.log 10
  YN2 * (8.48 / 1000 * log10_Sg + 9.59 / 1000) +
    YCO2 * (9.08 / 1000 * log10_Sg + 6.24 / 1000) +
    YH2S * (8.49 / 1000 * log10_Sg + 3.73 / 1000)

/-- Embedding of `gas_viscosity` (GasCorrelations.ts): a specific gravity
below 0.56 returns 0 before any other computation; otherwise dispatch on the
viscosity method.  `Z` may be NaN, so density-based branches compute in
`JSNum`. -/
def gas_viscosity (P T Sg_g Ppc Tpc : ℝ) (Z : JSNum) (methodv : ℕ)
    (YN2 YCO2 YH2S : ℝ) : JSNum :=
  if Sg_g < 0.56 then JSNum.num 0
  else
    let gasdensPT := gas_dens_PT P T Sg_g Z
    let gasdens := JSNum.div (JSNum.mul gasdensPT (JSNum.num 453.59237)) (JSNum.num 28316.8466)
    let Mwg := Sg_g * Mwair
    match methodv with
    | 0 =>
        let XK := (7.77 + 0.0063 * Mwg) * (T + Tabsolut) ^ (1.5 : ℝ) /
          (122.4 + 12.9 * Mwg + (T + Tabsolut))
        let x := 2.57 + 1914.5 / (T + Tabsolut) + 0.0095 * Mwg
        let Y := 1.11 + 0.04 * x
        JSNum.mul (JSNum.num (XK / 10000))
          (JSNum.exp (JSNum.mul (JSNum.num x) (JSNum.powJS gasdens (JSNum.num Y))))
    | 1 =>
        let XK := (9.4 + 0.02 * Mwg) * (T + Tabsolut) ^ (1.5 : ℝ) /
          (209 + 19 * Mwg + (T + Tabsolut))
        let x := 3.5 + 986 / (T + Tabsolut) + 0.01 * Mwg
        let Y := 2.4 - 0.2 * x
        JSNum.mul (JSNum.num (XK / 10000))
          (JSNum.exp (JSNum.mul (JSNum.num x) (JSNum.powJS gasdens (JSNum.num Y))))
    | 2 =>
        let XK := (9.379 + 0.01607 * Mwg) * (T + Tabsolut) ^ (1.5 : ℝ) /
          (209.2 + 19.26 * Mwg + (T + Tabsolut))
        let x := 3.448 + 986.4 / (T + Tabsolut) + 0.01009 * Mwg
        let Y := 2.447 - 0.2224 * x
        JSNum.mul (JSNum.num (XK / 10000))
          (JSNum.exp (JSNum.mul (JSNum.num x) (JSNum.powJS gasdens (JSNum.num Y))))
    | 3 =>
        let gasViscPatm := gas_visc_Patm T Sg_g + gas_visc_sour Sg_g YN2 YCO2 YH2S
        let Ppr := Pr_reduced P Ppc
        let Tpr := Tr_reduced T Tpc
        JSNum.num (gasViscPatm * gas_visc_ratio Ppr Tpr)
    | _ => JSNum.num 0

/-- Embedding of `gas_visc_PT` (GasCorrelations.ts): pseudo-critical and
reduced properties, a z-factor evaluation (which may raise), then
`gas_viscosity`. -/
def gas_visc_PT (P T Sg_g : ℝ) (methodv methodz : ℕ) (YN2 YCO2 YH2S : ℝ) :
    Except String JSNum :=
  let Ppc := (getPseudoCritical Sg_g).1
  let Tpc := (getPseudoCritical Sg_g).2
  let Tpr := Tr_reduced T Tpc
  let Ppr := Pr_reduced P Ppc
  (z_gas Ppr Tpr methodz).map
    (fun Z => gas_viscosity P T Sg_g Ppc Tpc Z methodv YN2 YCO2 YH2S)

/-- The `x1` candidate of the normalized quadratic `A x² + B x + C = 0`
computed by `invertFlow` (`A` is the bowedness exponent `a`). -/
def quadRootPlus (a B C : ℝ) : ℝ := (-B + Real.sqrt (B * B - 4 * a * C)) / (2 * a)

/-- The `x2` candidate of the normalized quadratic computed by `invertFlow`. -/
def quadRootMinus (a B C : ℝ) : ℝ := (-B - Real.sqrt (B * B - 4 * a * C)) / (2 * a)

/-! ## Helper lemmas and claim theorems -/

namespace JSNum

@[simp] theorem add_num_num (a b : ℝ) : add (num a) (num b) = num (a + b) := rfl

@[simp] theorem sub_num_num (a b : ℝ) : sub (num a) (num b) = num (a - b) := by
  show num (a + -b) = num (a - b)
  rw [sub_eq_add_neg]

@[simp] theorem sub_num_nan (a : ℝ) : sub (num a) nan = nan := rfl

@[simp] theorem mul_num_num (a b : ℝ) : mul (num a) (num b) = num (a * b) := rfl

@[simp] theorem mul_num_nan (a : JSNum) : mul a nan = nan := by
  cases a <;> rfl

@[simp] theorem mul_nan (a : JSNum) : mul nan a = nan := by
  cases a <;> rfl

theorem div_num_num_of_ne (a : ℝ) {b : ℝ} (hb : b ≠ 0) :
    div (num a) (num b) = num (a / b) := by
  show ite _ _ _ = _
  rw [if_neg hb]

theorem div_num_zero_pos {a : ℝ} (ha : 0 < a) : div (num a) (num 0) = pinf := by
  show ite _ _ _ = _
  rw [if_pos rfl, if_neg (ne_of_gt ha), if_pos ha]

@[simp] theorem div_zero_zero : div (num 0) (num 0) = nan := by
  show ite _ _ _ = _
  rw [if_pos rfl, if_pos rfl]

@[simp] theorem mul_pinf_num (b : ℝ) :
    mul pinf (num b) = if b = 0 then nan else if 0 < b then pinf else ninf := rfl

@[simp] theorem isFinite_num (a : ℝ) : isFinite (num a) := trivial

@[simp] theorem not_isFinite_nan : ¬ isFinite nan := fun h => h

@[simp] theorem not_isFinite_pinf : ¬ isFinite pinf := fun h => h

@[simp] theorem not_isFinite_ninf : ¬ isFinite ninf := fun h => h

theorem num_injective {a b : ℝ} (h : num a = num b) : a = b := by
  injection h

end JSNum

/-- The logarithmic drainage term of the C1 scenario is above 0.75, so the
productivity denominator is positive. -/
theorem log_re_rw_large : (0.75 : ℝ) < Real.log (1000 / 0.3) := by
  have h2 : Real.exp 0.75 ≤ Real.exp 1 := Real.exp_le_exp.mpr (by norm_num)
  have h3 := Real.exp_one_lt_d9
  exact (Real.lt_log_iff_exp_lt (by norm_num)).mpr (by nlinarith)

/-- C1: the Liquid/Pseudosteady inflow generator with spacing method
`Number of Points` and N = 2, at k = 50, h = 20, Bo = 1.2, μo = 2, s = 0,
p_avg = 3000, re = 1000, rw = 0.3, returns exactly the two points
{p_wf = 3000, rate = 0} and {p_wf = 0, rate = J · 3000} with
J = (k·h)/(141.2·Bo·μo)/(ln(re/rw) − 0.75 + s). -/
theorem C1_liquid_pseudosteady_pointcount_two :
    oil_calculatePseudosteadyIPR 50 20 1.2 2 0 3000 1000 0.3 .numberOfPoints 2 =
      [(JSNum.num 3000, JSNum.num 0),
       (JSNum.num 0,
        JSNum.num (50 * 20 / (141.2 * 1.2 * 2) / (Real.log (1000 / 0.3) - 0.75 + 0) * 3000))] := by
  have hdenom : Real.log ((1000 : ℝ) / 0.3) - 0.75 + 0 ≠ 0 := by
    have := log_re_rw_large
    intro h
    nlinarith
  have hd1 : ∀ x : ℝ, JSNum.div (JSNum.num x) (JSNum.num (141.2 * 1.2 * 2)) =
      JSNum.num (x / (141.2 * 1.2 * 2)) := fun x => JSNum.div_num_num_of_ne x (by norm_num)
  have hd2 : ∀ x : ℝ, JSNum.div (JSNum.num x) (JSNum.num (Real.log (1000 / 0.3) - 0.75 + 0)) =
      JSNum.num (x / (Real.log (1000 / 0.3) - 0.75 + 0)) :=
    fun x => JSNum.div_num_num_of_ne x hdenom
  have hd3 : ∀ x : ℝ, JSNum.div (JSNum.num x) (JSNum.num ((2 : ℝ) - 1)) =
      JSNum.num (x / (2 - 1)) := fun x => JSNum.div_num_num_of_ne x (by norm_num)
  unfold oil_calculatePseudosteadyIPR
  rw [if_pos (by norm_num : (0 : ℝ) < 2)]
  simp only [hd1, hd2, hd3, show ⌈(2 : ℝ)⌉₊ = 2 from by norm_num,
    show List.range 2 = [0, 1] from rfl, List.map_cons, List.map_nil]
  norm_num

/-- A point count of 1 makes the internal fraction `i / (N - 1)` evaluate to
`0 / 0 = NaN`, which propagates into both coordinates of the single emitted
point, for every parameter set. -/
theorem oil_pss_pointcount_one_eval (k h Bo muo s p_avg re rw : ℝ) :
    oil_calculatePseudosteadyIPR k h Bo muo s p_avg re rw .numberOfPoints 1 =
      [(JSNum.nan, JSNum.nan)] := by
  unfold oil_calculatePseudosteadyIPR
  rw [if_pos (by norm_num : (0 : ℝ) < 1)]
  simp only [show ⌈(1 : ℝ)⌉₊ = 1 from by norm_num, show List.range 1 = [0] from rfl,
    List.map_cons, List.map_nil, Nat.cast_zero]
  norm_num

/-- C8 (amended): the spacing methods do not tolerate N = 1 defensively: with
`Number of Points` and value 1 the Liquid/Pseudosteady generator divides
`0 / (N − 1) = 0 / 0 = NaN` and emits the single point {p_wf: NaN, rate: NaN}
for every parameter set, instead of a finite output. -/
theorem C8_pointcount_one_yields_nan (k h Bo muo s p_avg re rw : ℝ) :
    oil_calculatePseudosteadyIPR k h Bo muo s p_avg re rw .numberOfPoints 1 =
      [(JSNum.nan, JSNum.nan)] :=
  oil_pss_pointcount_one_eval k h Bo muo s p_avg re rw

/-- C8 (counterexample): at k = h = Bo = μo = s = 1, p_avg = 3000, re = rw = 1
and point count N = 1, the generator's output is not a sequence of finite
points, refuting the claim that N = 1 yields a well-defined finite output. -/
theorem C8_counterexample :
    ¬ (∀ pt ∈ oil_calculatePseudosteadyIPR 1 1 1 1 1 3000 1 1 .numberOfPoints 1,
        JSNum.isFinite pt.1 ∧ JSNum.isFinite pt.2) := by
  intro hfin
  have hmem : (JSNum.nan, JSNum.nan) ∈
      oil_calculatePseudosteadyIPR 1 1 1 1 1 3000 1 1 .numberOfPoints 1 := by
    rw [oil_pss_pointcount_one_eval]
    exact List.mem_singleton.mpr rfl
  exact (hfin _ hmem).1

/-- C4: with the degenerate denominator ln(re/rw) − 0.75 + s = 0 (re = rw = 1,
s = 0.75) the Liquid/Pseudosteady generator neither skips the samples nor
returns an empty curve: it emits a NaN rate at p_wf = p_avg and a +∞ rate at
p_wf = 0, contradicting the guard the specification requires. -/
theorem C4_degenerate_denominator_emits_nonfinite :
    oil_calculatePseudosteadyIPR 1 1 1 1 0.75 3000 1 1 .numberOfPoints 2 =
      [(JSNum.num 3000, JSNum.nan), (JSNum.num 0, JSNum.pinf)] := by
  have hd1 : ∀ x : ℝ, JSNum.div (JSNum.num x) (JSNum.num (141.2 * 1 * 1)) =
      JSNum.num (x / (141.2 * 1 * 1)) := fun x => JSNum.div_num_num_of_ne x (by norm_num)
  have hfac : JSNum.div (JSNum.num ((1 * 1 : ℝ) / (141.2 * 1 * 1)))
      (JSNum.num (Real.log (1 / 1) - 0.75 + 0.75)) = JSNum.pinf := by
    rw [show Real.log ((1 : ℝ) / 1) - 0.75 + 0.75 = 0 from by norm_num [Real.log_one]]
    exact JSNum.div_num_zero_pos (by norm_num)
  have hd3 : ∀ x : ℝ, JSNum.div (JSNum.num x) (JSNum.num ((2 : ℝ) - 1)) =
      JSNum.num (x / (2 - 1)) := fun x => JSNum.div_num_num_of_ne x (by norm_num)
  unfold oil_calculatePseudosteadyIPR
  rw [if_pos (by norm_num : (0 : ℝ) < 2)]
  simp only [hd1, hfac, hd3, show ⌈(2 : ℝ)⌉₊ = 2 from by norm_num,
    show List.range 2 = [0, 1] from rfl, List.map_cons, List.map_nil]
  norm_num

/-- C6: for every Reynolds number with 0 < Re < 2100, every relative roughness
and every friction-model selector, the Fanning friction factor is exactly
16 / Re. -/
theorem C6_laminar_friction (Re rel : ℝ) (model : FrictionModel)
    (h0 : 0 < Re) (h1 : Re < 2100) :
    fanningFromModel Re rel model = 16 / Re := by
  unfold fanningFromModel
  rw [if_pos h1]

/-- C6 witness: Re = 1000 yields f = 0.016 exactly, for each concrete model. -/
theorem C6_laminar_friction_witness :
    fanningFromModel 1000 0.0006 .chen = 0.016 ∧
    fanningFromModel 1000 0.0006 .swameeJain = 0.016 ∧
    fanningFromModel 1000 0.0006 .colebrookWhite = 0.016 ∧
    fanningFromModel 1000 0.0006 .haaland = 0.016 ∧
    fanningFromModel 1000 0.0006 .churchill = 0.016 := by
  refine ⟨?_, ?_, ?_, ?_, ?_⟩ <;>
    rw [C6_laminar_friction 1000 0.0006 _ (by norm_num) (by norm_num)] <;> norm_num

/-- C10: method codes 2 (Hall & Yarborough) and 5 (chart interpolation) fall
through to the default branch of `z_gas` and return NaN without raising, for
every positive reduced pressure and temperature; no reachable branch calls the
table-interpolation path. -/
theorem C10_zgas_codes_2_5_nan (Ppr Tpr : ℝ) (hP : 0 < Ppr) (hT : 0 < Tpr) :
    z_gas Ppr Tpr 2 = .ok JSNum.nan ∧ z_gas Ppr Tpr 5 = .ok JSNum.nan := by
  unfold z_gas
  rw [if_pos ⟨hP, hT⟩]
  exact ⟨rfl, rfl⟩

/-- C10 witness at Ppr = 1, Tpr = 2. -/
theorem C10_zgas_codes_2_5_nan_witness :
    z_gas 1 2 2 = .ok JSNum.nan ∧ z_gas 1 2 5 = .ok JSNum.nan :=
  C10_zgas_codes_2_5_nan 1 2 (by norm_num) (by norm_num)

/-- C9 (counterexample): with Sg_g = 0.3 < 0.56, P = 21000 psia, T = 100 °F
and default method codes, `gas_visc_PT` raises: the reduced pressure
21000 / 672.5 ≈ 31.2 fails the DAK domain check inside the viscosity path, so
the claim that `gas_visc_PT` never raises for Sg_g < 0.56 is false. -/
theorem C9_counterexample :
    gas_visc_PT 21000 100 0.3 0 0 0 0 0 =
      .error "Z_DAK1975: out of recommended correlation limits" := by
  unfold gas_visc_PT z_gas Z_DAK1975 getPseudoCritical Pr_reduced Tr_reduced
  simp only []
  rw [if_pos (by norm_num : (0 : ℝ) < 21000 / (677 - 15 * 0.3) ∧
      (0 : ℝ) < (100 + 459.67) / (168 + 325 * 0.3))]
  rw [if_neg (by norm_num :
      ¬ ((0 : ℝ) < 21000 / (677 - 15 * 0.3) ∧ (21000 : ℝ) / (677 - 15 * 0.3) < 30 ∧
         (1 : ℝ) < (100 + 459.67) / (168 + 325 * 0.3) ∧
         (100 + 459.67 : ℝ) / (168 + 325 * 0.3) ≤ 3))]
  rfl

/-- C9 (amended): at the public correlation interface, for every pressure,
temperature and method code, `z_PT` raises whenever Sg_g < 0.56; `gas_visc_PT`
with the same Sg_g < 0.56 returns a viscosity of exactly 0 whenever it returns
at all (it can still raise when the reduced conditions fail the selected z
correlation's domain check). -/
theorem C9_light_gas_asymmetry (P T Sg : ℝ) (mz mv : ℕ) (YN2 YCO2 YH2S : ℝ)
    (hSg : Sg < 0.56) :
    z_PT P T Sg mz = .error "gas z-factor: Sg_g is less than 0.56" ∧
    ∀ r, gas_visc_PT P T Sg mv mz YN2 YCO2 YH2S = .ok r → r = JSNum.num 0 := by
  constructor
  · unfold z_PT
    rw [if_neg (by linarith)]
  · intro r hr
    unfold gas_visc_PT at hr
    simp only [] at hr
    cases hz : z_gas (Pr_reduced P (getPseudoCritical Sg).1)
        (Tr_reduced T (getPseudoCritical Sg).2) mz with
    | error e =>
        rw [hz] at hr
        simp [Except.map] at hr
    | ok Z =>
        rw [hz] at hr
        simp only [Except.map, Except.ok.injEq] at hr
        rw [← hr]
        unfold gas_viscosity
        rw [if_pos hSg]

/-- C9 witness: at P = 500, T = 100, Sg_g = 0.3 with the default methods,
`z_PT` raises and `gas_visc_PT` returns exactly 0. -/
theorem C9_light_gas_asymmetry_witness :
    z_PT 500 100 0.3 0 = .error "gas z-factor: Sg_g is less than 0.56" ∧
    gas_visc_PT 500 100 0.3 0 0 0 0 0 = .ok (JSNum.num 0) := by
  have main := C9_light_gas_asymmetry 500 100 0.3 0 0 0 0 0 (by norm_num)
  refine ⟨main.1, ?_⟩
  have hok : ∃ r, gas_visc_PT 500 100 0.3 0 0 0 0 0 = .ok r := by
    unfold gas_visc_PT z_gas Z_DAK1975 getPseudoCritical Pr_reduced Tr_reduced
    simp only []
    rw [if_pos (by norm_num : (0 : ℝ) < 500 / (677 - 15 * 0.3) ∧
        (0 : ℝ) < (100 + 459.67) / (168 + 325 * 0.3))]
    rw [if_pos (by norm_num :
        (0 : ℝ) < 500 / (677 - 15 * 0.3) ∧ (500 : ℝ) / (677 - 15 * 0.3) < 30 ∧
        (1 : ℝ) < (100 + 459.67) / (168 + 325 * 0.3) ∧
        (100 + 459.67 : ℝ) / (168 + 325 * 0.3) ≤ 3)]
    exact ⟨_, rfl⟩
  obtain ⟨r, hr⟩ := hok
  rw [hr, main.2 r hr]

/-- If no two consecutive iterates ever agree within `tol`, the convergence
loop exhausts its budget and returns the sentinel 999. -/
theorem convLoop_stuck (step out : ℝ → ℝ) (tol : ℝ) :
    ∀ (n : ℕ) (x : ℝ), (∀ k < n, tol ≤ |step (step^[k] x) - step^[k] x|) →
      convLoop step out tol n x = 999 := by
  intro n
  induction n with
  | zero => intro x _; rfl
  | succ m ih =>
    intro x hx
    have h0 : tol ≤ |step x - x| := by simpa using hx 0 (Nat.succ_pos m)
    show (if |step x - x| < tol then out x else convLoop step out tol m (step x)) = 999
    rw [if_neg (not_lt.mpr h0)]
    refine ih (step x) (fun k hk => ?_)
    have := hx (k + 1) (Nat.succ_lt_succ hk)
    simpa [Function.iterate_succ_apply] using this

/-- C5: each z-factor correlation raises immediately outside its validated
domain (method 0: 0 < Ppr < 30 and 1 < Tpr ≤ 3; method 1: 0 < Ppr < 15 and
1 < Tpr ≤ 3; method 3: 0 ≤ Ppr < 15 and 1 < Tpr ≤ 3; method 4: 0 ≤ Ppr < 15
and 1.15 < Tpr ≤ 2.4), and each iterative method (0, 1 and 3) that exhausts
its 100-iteration budget without two consecutive iterates meeting its
tolerance returns the sentinel 999 rather than raising or looping forever. -/
theorem C5_zfactor_domain_and_sentinel (Ppr Tpr : ℝ) :
    (¬ (0 < Ppr ∧ Ppr < 30 ∧ 1 < Tpr ∧ Tpr ≤ 3) →
      Z_DAK1975 Ppr Tpr = .error "Z_DAK1975: out of recommended correlation limits") ∧
    (¬ (0 < Ppr ∧ Ppr < 15 ∧ 1 < Tpr ∧ Tpr ≤ 3) →
      Z_DPR1974 Ppr Tpr = .error "Z_DPR1974: out of recommended correlation limits") ∧
    (¬ (0 ≤ Ppr ∧ Ppr < 15 ∧ 1 < Tpr ∧ Tpr ≤ 3) →
      Z_RedlichKwong1949 Ppr Tpr =
        .error "Z_RedlichKwong1949: out of recommended correlation limits") ∧
    (¬ ((0 ≤ Ppr ∧ Ppr < 15) ∧ (1.15 < Tpr ∧ Tpr ≤ 2.4)) →
      Z_BrillBeggs1974 Ppr Tpr = .error "Z_BrillBeggs1974: Out of correlation limits") ∧
    ((0 < Ppr ∧ Ppr < 30 ∧ 1 < Tpr ∧ Tpr ≤ 3) →
      (∀ k < 100, 1e-6 ≤
        |dakNext Ppr Tpr ((dakNext Ppr Tpr)^[k] (0.27 * (Ppr / Tpr))) -
          (dakNext Ppr Tpr)^[k] (0.27 * (Ppr / Tpr))|) →
      Z_DAK1975 Ppr Tpr = .ok 999) ∧
    ((0 < Ppr ∧ Ppr < 15 ∧ 1 < Tpr ∧ Tpr ≤ 3) →
      (∀ k < 100, 1e-6 ≤
        |dprNext Ppr Tpr ((dprNext Ppr Tpr)^[k] (0.27 * (Ppr / Tpr))) -
          (dprNext Ppr Tpr)^[k] (0.27 * (Ppr / Tpr))|) →
      Z_DPR1974 Ppr Tpr = .ok 999) ∧
    ((0 ≤ Ppr ∧ Ppr < 15 ∧ 1 < Tpr ∧ Tpr ≤ 3) →
      (∀ k < 100, 1e-5 ≤
        |rkNext Ppr Tpr ((rkNext Ppr Tpr)^[k] 1) - (rkNext Ppr Tpr)^[k] 1|) →
      Z_RedlichKwong1949 Ppr Tpr = .ok 999) := by
  refine ⟨fun hd => ?_, fun hd => ?_, fun hd => ?_, fun hd => ?_,
    fun hd hs => ?_, fun hd hs => ?_, fun hd hs => ?_⟩
  · unfold Z_DAK1975; rw [if_neg hd]
  · unfold Z_DPR1974; rw [if_neg hd]
  · unfold Z_RedlichKwong1949; rw [if_neg hd]
  · unfold Z_BrillBeggs1974; rw [if_neg hd]
  · unfold Z_DAK1975
    rw [if_pos hd, convLoop_stuck _ _ _ 100 _ hs]
  · unfold Z_DPR1974
    rw [if_pos hd, convLoop_stuck _ _ _ 100 _ hs]
  · unfold Z_RedlichKwong1949
    rw [if_pos hd, convLoop_stuck _ _ _ 100 _ hs]

/-- C5 witness: at Ppr = 30, Tpr = 2 every correlation raises its domain
error (the reduced pressure is at or beyond each validated bound). -/
theorem C5_zfactor_witness :
    Z_DAK1975 30 2 = .error "Z_DAK1975: out of recommended correlation limits" ∧
    Z_DPR1974 30 2 = .error "Z_DPR1974: out of recommended correlation limits" ∧
    Z_RedlichKwong1949 30 2 =
      .error "Z_RedlichKwong1949: out of recommended correlation limits" ∧
    Z_BrillBeggs1974 30 2 = .error "Z_BrillBeggs1974: Out of correlation limits" := by
  have main := C5_zfactor_domain_and_sentinel 30 2
  exact ⟨main.1 (by norm_num), main.2.1 (by norm_num), main.2.2.1 (by norm_num),
    main.2.2.2.1 (by norm_num)⟩

/-- Any value delivered by `selectRoot` lies in `[0, 1]`. -/
theorem selectRoot_bounds {x1 x2 y : ℝ} (h : selectRoot x1 x2 = some y) :
    0 ≤ y ∧ y ≤ 1 := by
  unfold selectRoot at h
  split_ifs at h with h1 h2 h3
  · obtain rfl : max x1 x2 = y := by injection h
    exact ⟨le_max_of_le_left h1.1, max_le h1.2 h2.2⟩
  · obtain rfl : x1 = y := by injection h
    exact h1
  · obtain rfl : x2 = y := by injection h
    exact h3

/-- When both candidates are admissible, `selectRoot` returns the larger. -/
theorem selectRoot_max {x1 x2 : ℝ} (h1 : 0 ≤ x1 ∧ x1 ≤ 1) (h2 : 0 ≤ x2 ∧ x2 ≤ 1) :
    selectRoot x1 x2 = some (max x1 x2) := by
  unfold selectRoot
  rw [if_pos h1, if_pos h2]

/-- Root selection contract of the quadratic tail shared by both branches of
`invertFlow`: any returned value is an admissible root fraction scaled by the
reference pressure, and two admissible roots resolve to the larger one. -/
theorem quadSelect_spec (a B C ref : ℝ) :
    (∀ r,
      (if B * B - 4 * a * C < 0 then none
       else Option.map (fun x => x * ref)
         (selectRoot ((-B + Real.sqrt (B * B - 4 * a * C)) / (2 * a))
            ((-B - Real.sqrt (B * B - 4 * a * C)) / (2 * a)))) = some r →
      ∃ x, (0 ≤ x ∧ x ≤ 1) ∧ r = x * ref) ∧
    (0 ≤ B * B - 4 * a * C →
      (0 ≤ quadRootPlus a B C ∧ quadRootPlus a B C ≤ 1) →
      (0 ≤ quadRootMinus a B C ∧ quadRootMinus a B C ≤ 1) →
      (if B * B - 4 * a * C < 0 then none
       else Option.map (fun x => x * ref)
         (selectRoot ((-B + Real.sqrt (B * B - 4 * a * C)) / (2 * a))
            ((-B - Real.sqrt (B * B - 4 * a * C)) / (2 * a)))) =
        some (max (quadRootPlus a B C) (quadRootMinus a B C) * ref)) := by
  constructor
  · intro r hr
    by_cases hdisc : B * B - 4 * a * C < 0
    · rw [if_pos hdisc] at hr
      cases hr
    · rw [if_neg hdisc] at hr
      obtain ⟨y, hy, hyr⟩ := Option.map_eq_some'.mp hr
      exact ⟨y, selectRoot_bounds hy, hyr.symm⟩
  · intro hdisc h1 h2
    rw [if_neg (not_lt.mpr hdisc)]
    rw [show (-B + Real.sqrt (B * B - 4 * a * C)) / (2 * a) = quadRootPlus a B C from rfl]
    rw [show (-B - Real.sqrt (B * B - 4 * a * C)) / (2 * a) = quadRootMinus a B C from rfl]
    rw [selectRoot_max h1 h2, Option.map_some']

/-- C3: in the two-phase rate-step inversion, on each quadratic branch any
returned pressure is an admissible root fraction (in [0, 1]) times the
branch's reference pressure (p_avg on the saturated branch, pb on the Vogel
branch), and whenever both candidate roots are admissible the inversion
returns the larger root times that reference pressure, never the smaller. -/
theorem C3_invertFlow_root_selection (J p_avg pb a q : ℝ) :
    (p_avg ≤ pb →
      (∀ r, invertFlow J p_avg pb a q = some r → ∃ x, (0 ≤ x ∧ x ≤ 1) ∧ r = x * p_avg) ∧
      (0 ≤ (1 - a) * (1 - a) - 4 * a * (q / (J * p_avg / (1 + a)) - 1) →
        (0 ≤ quadRootPlus a (1 - a) (q / (J * p_avg / (1 + a)) - 1) ∧
          quadRootPlus a (1 - a) (q / (J * p_avg / (1 + a)) - 1) ≤ 1) →
        (0 ≤ quadRootMinus a (1 - a) (q / (J * p_avg / (1 + a)) - 1) ∧
          quadRootMinus a (1 - a) (q / (J * p_avg / (1 + a)) - 1) ≤ 1) →
        invertFlow J p_avg pb a q =
          some (max (quadRootPlus a (1 - a) (q / (J * p_avg / (1 + a)) - 1))
            (quadRootMinus a (1 - a) (q / (J * p_avg / (1 + a)) - 1)) * p_avg))) ∧
    (pb < p_avg → p_avg - q / J < pb →
      (∀ r, invertFlow J p_avg pb a q = some r → ∃ x, (0 ≤ x ∧ x ≤ 1) ∧ r = x * pb) ∧
      (0 ≤ (1 - a) * (1 - a) - 4 * a * ((q - J * (p_avg - pb)) / (J * pb / (1 + a)) - 1) →
        (0 ≤ quadRootPlus a (1 - a) ((q - J * (p_avg - pb)) / (J * pb / (1 + a)) - 1) ∧
          quadRootPlus a (1 - a) ((q - J * (p_avg - pb)) / (J * pb / (1 + a)) - 1) ≤ 1) →
        (0 ≤ quadRootMinus a (1 - a) ((q - J * (p_avg - pb)) / (J * pb / (1 + a)) - 1) ∧
          quadRootMinus a (1 - a) ((q - J * (p_avg - pb)) / (J * pb / (1 + a)) - 1) ≤ 1) →
        invertFlow J p_avg pb a q =
          some (max (quadRootPlus a (1 - a) ((q - J * (p_avg - pb)) / (J * pb / (1 + a)) - 1))
            (quadRootMinus a (1 - a) ((q - J * (p_avg - pb)) / (J * pb / (1 + a)) - 1)) * pb))) := by
  constructor
  · intro hsat
    have hinv : invertFlow J p_avg pb a q =
        (if (1 - a) * (1 - a) - 4 * a * (q / (J * p_avg / (1 + a)) - 1) < 0 then none
         else Option.map (fun x => x * p_avg)
           (selectRoot
             ((-(1 - a) + Real.sqrt ((1 - a) * (1 - a) -
                4 * a * (q / (J * p_avg / (1 + a)) - 1))) / (2 * a))
             ((-(1 - a) - Real.sqrt ((1 - a) * (1 - a) -
                4 * a * (q / (J * p_avg / (1 + a)) - 1))) / (2 * a)))) := by
      unfold invertFlow
      rw [if_pos hsat]
    rw [hinv]
    exact quadSelect_spec a (1 - a) (q / (J * p_avg / (1 + a)) - 1) p_avg
  · intro hlt hsingle
    have hinv : invertFlow J p_avg pb a q =
        (if (1 - a) * (1 - a) - 4 * a * ((q - J * (p_avg - pb)) / (J * pb / (1 + a)) - 1) < 0
         then none
         else Option.map (fun x => x * pb)
           (selectRoot
             ((-(1 - a) + Real.sqrt ((1 - a) * (1 - a) -
                4 * a * ((q - J * (p_avg - pb)) / (J * pb / (1 + a)) - 1))) / (2 * a))
             ((-(1 - a) - Real.sqrt ((1 - a) * (1 - a) -
                4 * a * ((q - J * (p_avg - pb)) / (J * pb / (1 + a)) - 1))) / (2 * a)))) := by
      unfold invertFlow
      rw [if_neg (not_le.mpr hlt), if_neg (not_le.mpr hsingle)]
    rw [hinv]
    exact quadSelect_spec a (1 - a) ((q - J * (p_avg - pb)) / (J * pb / (1 + a)) - 1) pb

/-- C3 witness: saturated branch with a = 3, J = 1, p_avg = 1, pb = 2 and
q = 5/16: the two quadratic roots are 1/2 and 1/6, both admissible, and the
inversion returns the larger, 1/2 (times p_avg = 1). -/
theorem C3_invertFlow_root_selection_witness :
    invertFlow 1 1 2 3 (5 / 16) = some (1 / 2) := by
  have hplus : quadRootPlus 3 (1 - 3) (5 / 16 / (1 * 1 / (1 + 3)) - 1) = 1 / 2 := by
    unfold quadRootPlus
    norm_num [Real.sqrt_one]
  have hminus : quadRootMinus 3 (1 - 3) (5 / 16 / (1 * 1 / (1 + 3)) - 1) = 1 / 6 := by
    unfold quadRootMinus
    norm_num [Real.sqrt_one]
  have main := (C3_invertFlow_root_selection 1 1 2 3 (5 / 16)).1 (by norm_num)
  have heq := main.2 (by norm_num) (by rw [hplus]; norm_num) (by rw [hminus]; norm_num)
  rw [heq, hplus, hminus]
  rw [max_eq_left (by norm_num : (1 : ℝ) / 6 ≤ 1 / 2)]
  norm_num

/-- Evaluating the quadratic tail of `invertFlow` when the constant term comes
from the forward map: the discriminant is the perfect square
`(1 − a + 2ax)²`, the plus-root is exactly `x`, the minus-root is
non-positive, and the selection returns `x · ref`. -/
theorem select_quad_eval (a x ref : ℝ) (ha0 : 0 < a) (ha1 : a ≤ 1)
    (hx0 : 0 ≤ x) (hx1 : x ≤ 1) :
    (if (1 - a) * (1 - a) - 4 * a * -((1 - a) * x + a * x ^ 2) < 0 then none
     else Option.map (fun y => y * ref)
       (selectRoot
         ((-(1 - a) + Real.sqrt ((1 - a) * (1 - a) -
            4 * a * -((1 - a) * x + a * x ^ 2))) / (2 * a))
         ((-(1 - a) - Real.sqrt ((1 - a) * (1 - a) -
            4 * a * -((1 - a) * x + a * x ^ 2))) / (2 * a)))) = some (x * ref) := by
  have hdisc : (1 - a) * (1 - a) - 4 * a * -((1 - a) * x + a * x ^ 2) =
      (1 - a + 2 * a * x) ^ 2 := by ring
  rw [hdisc, if_neg (not_lt.mpr (sq_nonneg _))]
  rw [Real.sqrt_sq (by nlinarith : (0 : ℝ) ≤ 1 - a + 2 * a * x)]
  have hx1eq : (-(1 - a) + (1 - a + 2 * a * x)) / (2 * a) = x := by
    rw [div_eq_iff (by positivity : (2 : ℝ) * a ≠ 0)]
    ring
  have hx2le : (-(1 - a) - (1 - a + 2 * a * x)) / (2 * a) ≤ 0 :=
    div_nonpos_of_nonpos_of_nonneg (by nlinarith) (by linarith)
  rw [hx1eq]
  unfold selectRoot
  rw [if_pos ⟨hx0, hx1⟩]
  by_cases h2 : 0 ≤ (-(1 - a) - (1 - a + 2 * a * x)) / (2 * a) ∧
      (-(1 - a) - (1 - a + 2 * a * x)) / (2 * a) ≤ 1
  · rw [if_pos h2, Option.map_some', max_eq_left (hx2le.trans hx0)]
  · rw [if_neg h2, Option.map_some']

/-- Round trip of the two-phase forward map and its rate-step inversion, with
the productivity index abstracted: for admissible parameters and any
bottomhole pressure in `[0, p_avg]`, inverting the forward rate recovers the
pressure exactly. -/
theorem invertFlow_getFlow_roundtrip (J p_avg pb a p_wf : ℝ)
    (hJ : 0 < J) (ha0 : 0 < a) (ha1 : a ≤ 1) (hpb : 0 ≤ pb) (hpavg : 0 < p_avg)
    (h0 : 0 ≤ p_wf) (h1 : p_wf ≤ p_avg) :
    invertFlow J p_avg pb a (getFlow J p_avg pb a p_wf) = some p_wf := by
  have ha' : (0 : ℝ) < 1 + a := by linarith
  by_cases hsat : p_avg ≤ pb
  · -- saturated reservoir: single Vogel-type quadratic over [0, p_avg]
    have hx0 : 0 ≤ p_wf / p_avg := div_nonneg h0 hpavg.le
    have hx1 : p_wf / p_avg ≤ 1 := (div_le_one hpavg).mpr h1
    have hA : J * p_avg / (1 + a) ≠ 0 := by positivity
    unfold getFlow invertFlow
    rw [if_pos hsat, if_pos hsat]
    simp only []
    have hC : J * p_avg / (1 + a) * (1 - (1 - a) * (p_wf / p_avg) - a * (p_wf / p_avg) ^ 2) /
        (J * p_avg / (1 + a)) - 1 =
        -((1 - a) * (p_wf / p_avg) + a * (p_wf / p_avg) ^ 2) := by
      rw [mul_div_cancel_left₀ _ hA]
      ring
    rw [hC, select_quad_eval a (p_wf / p_avg) p_avg ha0 ha1 hx0 hx1,
      div_mul_cancel₀ _ (ne_of_gt hpavg)]
  · have hlt : pb < p_avg := not_le.mp hsat
    by_cases hge : pb ≤ p_wf
    · -- Darcy region: linear map, algebraic inversion
      unfold getFlow invertFlow
      rw [if_neg hsat, if_neg hsat, if_pos hge]
      simp only []
      have hq : p_avg - J * (p_avg - p_wf) / J = p_wf := by
        rw [mul_div_cancel_left₀ _ (ne_of_gt hJ)]
        ring
      rw [hq, if_pos hge]
    · -- Vogel region below the bubble point
      have hwlt : p_wf < pb := not_le.mp hge
      have hpb0 : 0 < pb := lt_of_le_of_lt h0 hwlt
      have hx0 : 0 ≤ p_wf / pb := div_nonneg h0 hpb0.le
      have hx1' : p_wf / pb < 1 := (div_lt_one hpb0).mpr hwlt
      have hA : J * pb / (1 + a) ≠ 0 := by positivity
      unfold getFlow invertFlow
      rw [if_neg hsat, if_neg hsat, if_neg hge]
      simp only []
      have hq : p_avg - (J * (p_avg - pb) + J * pb / (1 + a) *
          (1 - (1 - a) * (p_wf / pb) - a * (p_wf / pb) ^ 2)) / J =
          pb - pb / (1 + a) * (1 - (1 - a) * (p_wf / pb) - a * (p_wf / pb) ^ 2) := by
        field_simp
        ring
      rw [hq]
      have hE : (0 : ℝ) < 1 - (1 - a) * (p_wf / pb) - a * (p_wf / pb) ^ 2 := by
        nlinarith [mul_pos (by linarith : (0 : ℝ) < 1 - p_wf / pb)
          (by nlinarith : (0 : ℝ) < 1 + a * (p_wf / pb))]
      have hcond : pb - pb / (1 + a) *
          (1 - (1 - a) * (p_wf / pb) - a * (p_wf / pb) ^ 2) < pb := by
        nlinarith [mul_pos (div_pos hpb0 ha') hE]
      rw [if_neg (not_le.mpr hcond)]
      have hC : (J * (p_avg - pb) + J * pb / (1 + a) *
          (1 - (1 - a) * (p_wf / pb) - a * (p_wf / pb) ^ 2) - J * (p_avg - pb)) /
          (J * pb / (1 + a)) - 1 =
          -((1 - a) * (p_wf / pb) + a * (p_wf / pb) ^ 2) := by
        rw [add_sub_cancel_left, mul_div_cancel_left₀ _ hA]
        ring
      rw [hC, select_quad_eval a (p_wf / pb) pb ha0 ha1 hx0 hx1'.le,
        div_mul_cancel₀ _ (ne_of_gt hpb0)]

/-- The forward two-phase map is continuous at the bubble point when the
reservoir is above it: the Darcy and Vogel pieces agree at `p_wf = pb`. -/
theorem getFlow_continuousAt_pb (J p_avg pb a : ℝ) (hlt : pb < p_avg) :
    ContinuousAt (getFlow J p_avg pb a) pb := by
  have hfun : getFlow J p_avg pb a = fun p_wf =>
      if pb ≤ p_wf then J * (p_avg - p_wf)
      else J * (p_avg - pb) +
        J * pb / (1 + a) * (1 - (1 - a) * (p_wf / pb) - a * (p_wf / pb) ^ 2) := by
    funext p_wf
    unfold getFlow
    rw [if_neg (not_le.mpr hlt)]
  rw [hfun]
  apply Continuous.continuousAt
  have hdiv : Continuous fun p_wf : ℝ => p_wf / pb := continuous_id.div_const pb
  apply Continuous.if_le
  · exact continuous_const.mul (continuous_const.sub continuous_id)
  · exact continuous_const.add (continuous_const.mul
      ((continuous_const.sub (continuous_const.mul hdiv)).sub
        (continuous_const.mul (hdiv.pow 2))))
  · exact continuous_const
  · exact continuous_id
  · intro p_wf hpw
    rw [← hpw]
    rcases eq_or_ne pb 0 with h0 | h0
    · rw [h0]
      simp
    · rw [div_self h0]
      ring

/-- C2: for every two-phase pseudosteady parameter set with positive rock and
fluid inputs, positive productivity denominator ln(re/rw) − 0.75 + s,
bowedness a ∈ (0, 1] and bubble point pb ≥ 0, and every bottomhole pressure
p_wf ∈ [0, p_avg] (covering both sides of the bubble point), the rate-step
inversion applied to the forward map recovers p_wf exactly, and the forward
map is continuous at p_wf = pb whenever p_avg > pb. -/
theorem C2_twophase_roundtrip_and_continuity
    (k h Bo muo s re rw p_avg pb a p_wf : ℝ)
    (hk : 0 < k) (hh : 0 < h) (hBo : 0 < Bo) (hmuo : 0 < muo)
    (hdenom : 0 < Real.log (re / rw) - 0.75 + s)
    (ha0 : 0 < a) (ha1 : a ≤ 1) (hpb : 0 ≤ pb) (hpavg : 0 < p_avg)
    (h0 : 0 ≤ p_wf) (h1 : p_wf ≤ p_avg) :
    invertFlow (k * h / (141.2 * Bo * muo) / (Real.log (re / rw) - 0.75 + s)) p_avg pb a
      (getFlow (k * h / (141.2 * Bo * muo) / (Real.log (re / rw) - 0.75 + s))
        p_avg pb a p_wf) = some p_wf ∧
    (pb < p_avg →
      ContinuousAt
        (getFlow (k * h / (141.2 * Bo * muo) / (Real.log (re / rw) - 0.75 + s))
          p_avg pb a) pb) := by
  have hJ : 0 < k * h / (141.2 * Bo * muo) / (Real.log (re / rw) - 0.75 + s) :=
    div_pos (div_pos (mul_pos hk hh) (by positivity)) hdenom
  exact ⟨invertFlow_getFlow_roundtrip _ p_avg pb a p_wf hJ ha0 ha1 hpb hpavg h0 h1,
    fun hlt => getFlow_continuousAt_pb _ p_avg pb a hlt⟩

/-- C2 witness: k = 141.2, h = Bo = μo = 1, re = rw = 1, s = 1 (denominator
0.25, J = 4), p_avg = 2 above the bubble point pb = 1, a = 1, sampled at
p_wf = 1/2 on the Vogel side; the inversion returns 1/2 and the forward map
is continuous at the bubble point. -/
theorem C2_twophase_roundtrip_and_continuity_witness :
    invertFlow (141.2 * 1 / (141.2 * 1 * 1) / (Real.log (1 / 1) - 0.75 + 1)) 2 1 1
      (getFlow (141.2 * 1 / (141.2 * 1 * 1) / (Real.log (1 / 1) - 0.75 + 1)) 2 1 1 (1 / 2)) =
      some (1 / 2) ∧
    ContinuousAt
      (getFlow (141.2 * 1 / (141.2 * 1 * 1) / (Real.log (1 / 1) - 0.75 + 1)) 2 1 1) 1 := by
  have main := C2_twophase_roundtrip_and_continuity 141.2 1 1 1 1 1 1 2 1 1 (1 / 2)
    (by norm_num) (by norm_num) (by norm_num) (by norm_num)
    (by rw [show (1 : ℝ) / 1 = 1 from by norm_num, Real.log_one]; norm_num)
    (by norm_num) (by norm_num) (by norm_num) (by norm_num) (by norm_num) (by norm_num)
  exact ⟨main.1, main.2 (by norm_num)⟩

end
